import Mathlib

/-
Verification of the fastify multi-database query builder.

The development shallowly embeds the repository's JavaScript sources:
  * `QueryBuilder` (src/unnamed/part_000) — the fluent builder holding the
    accumulated query description (conditions, fields, sorts, limit, skip)
    and dispatching to an adapter chosen from the engine tag;
  * `KnexAdapter` (src/lib/adapters/knexAdapter.js) — translation of the
    builder state into a relational (knex) query;
  * `MongoAdapter` (src/lib/adapters/mongoAdapter.js) — translation of the
    builder state into a MongoDB filter/options pair.

JavaScript runtime values are embedded as the inductive `JSVal`; JavaScript
objects are insertion-ordered key/value lists with overwriting assignment
(`objSet`).  The backend clients (knex and the mongodb driver) are external
collaborators of the repository; where a property speaks about executing a
query we model their matching semantics from the spec's operator table
(definitions marked "Modelled from the spec").
-/

/-- A JavaScript runtime value: the values flowing through the builder and
the adapters (condition values, filter clauses, regex objects built for
LIKE translation). -/
inductive JSVal where
  | undefined
  | null
  | bool (b : Bool)
  | num (n : Int)
  | str (s : String)
  | arr (xs : List JSVal)
  | obj (kvs : List (String × JSVal))
  | regex (pattern : String) (flags : String)

namespace JSVal

/-- `v === undefined`: the strict-equality test against `undefined` used by
`QueryBuilder.where` is a pure tag check. -/
def isUndefined : JSVal → Bool
  | .undefined => true
  | _ => false

/-- JavaScript truthiness, as used by `results[0] || null`. -/
def truthy : JSVal → Bool
  | .undefined => false
  | .null => false
  | .bool b => b
  | .num n => n != 0
  | .str s => s != ""
  | .arr _ => true
  | .obj _ => true
  | .regex _ _ => true

end JSVal

mutual
/-- Structural equality of JavaScript values (value equality as used by the
modelled backends when testing `$eq` / `IN` membership). -/
def jsEqB : JSVal → JSVal → Bool
  | .undefined, .undefined => true
  | .null, .null => true
  | .bool a, .bool b => a == b
  | .num a, .num b => a == b
  | .str a, .str b => a == b
  | .regex p f, .regex q g => p == q && f == g
  | .arr xs, .arr ys => jsEqListB xs ys
  | .obj xs, .obj ys => jsEqPairsB xs ys
  | _, _ => false

/-- Elementwise equality of value lists. -/
def jsEqListB : List JSVal → List JSVal → Bool
  | [], [] => true
  | x :: xs, y :: ys => jsEqB x y && jsEqListB xs ys
  | _, _ => false

/-- Elementwise equality of key/value pair lists. -/
def jsEqPairsB : List (String × JSVal) → List (String × JSVal) → Bool
  | [], [] => true
  | (k1, v1) :: xs, (k2, v2) :: ys => k1 == k2 && jsEqB v1 v2 && jsEqPairsB xs ys
  | _, _ => false
end

/-- A JavaScript object, as an insertion-ordered key/value list. -/
abbrev JSObj := List (String × JSVal)

/-- JavaScript property assignment `o[k] = v`: overwrite in place when the
key exists (keeping its position), append otherwise. -/
def objSet {α : Type} (o : List (String × α)) (k : String) (v : α) :
    List (String × α) :=
  match o with
  | [] => [(k, v)]
  | (k1, v1) :: rest =>
    if k1 = k then (k, v) :: rest else (k1, v1) :: objSet rest k v

/-- JavaScript property read `o[k]` (first occurrence; keys built through
`objSet` are unique). -/
def objGet {α : Type} (o : List (String × α)) (k : String) : Option α :=
  match o with
  | [] => none
  | (k1, v1) :: rest => if k1 = k then some v1 else objGet rest k

/-- Property read defaulting to `undefined`, the JavaScript behaviour for a
missing key. -/
def objGetD (o : JSObj) (k : String) : JSVal :=
  (objGet o k).getD .undefined

/-- One accumulated predicate of the builder: the `{field, operator, value}`
records pushed onto `this.conditions`. -/
structure Condition where
  field : String
  operator : JSVal
  value : JSVal

/-- The adapter bound to a builder at construction time: `KnexAdapter`
carries the engine tag stored in its constructor, `MongoAdapter` stores
nothing the queries use. -/
inductive Adapter where
  | knexAdapter (dbEngine : String)
  | mongoAdapter

/-- The mutable state of a `QueryBuilder` instance (src/unnamed/part_000,
constructor): chain methods rewrite these fields and return the builder. -/
structure QueryBuilder where
  table : Option String
  collection : Option String
  conditions : List Condition
  fields : List JSVal
  sorts : List (String × String)
  limitValue : Option Int
  skipValue : Option Int
  adapter : Adapter
  dbEngine : String

namespace QueryBuilder

/-- `_initAdapter`: `mongodb`/`mongo` select the MongoAdapter, every other
engine tag selects the KnexAdapter (which stores the tag). -/
def initAdapter (dbEngine : String) : Adapter :=
  if dbEngine = "mongodb" ∨ dbEngine = "mongo" then
    .mongoAdapter
  else
    .knexAdapter dbEngine

/-- The `QueryBuilder` constructor with the engine tag already resolved
(`options.dbEngine || process.env.DB_ENGINE || 'pg'`): empty query state and
the adapter chosen by `_initAdapter`.  (The adapter constructors' missing-
dependency throws concern the external fastify decorations and are not
modelled.) -/
def create (dbEngine : String) : QueryBuilder :=
  { table := none
    collection := none
    conditions := []
    fields := []
    sorts := []
    limitValue := none
    skipValue := none
    adapter := initAdapter dbEngine
    dbEngine := dbEngine }

/-- `from(tableName)`: sets both the table and the collection name. -/
def from' (qb : QueryBuilder) (tableName : String) : QueryBuilder :=
  { qb with table := some tableName, collection := some tableName }

/-- The first argument of `where`, which is polymorphic in the source:
either a plain condition object or a field name (`typeof field === 'object'`
distinguishes them). -/
inductive WhereField where
  | obj (kvs : List (String × JSVal))
  | fld (name : String)

/-- `where(field, operator, value)` (named `where'` because `where` is a
Lean keyword).  A JavaScript call with fewer arguments passes `undefined`
for the missing ones: `where(f, v)` is `where' (.fld f) v .undefined`.
Shape selection follows the source exactly: object first argument, then the
`value === undefined` test, then the three-argument shape. -/
def where' (qb : QueryBuilder) (field : WhereField) (operator value : JSVal) :
    QueryBuilder :=
  match field with
  | .obj kvs =>
    { qb with conditions := qb.conditions ++
        kvs.map (fun kv => { field := kv.1, operator := .str "=", value := kv.2 }) }
  | .fld f =>
    if value.isUndefined then
      { qb with conditions := qb.conditions ++
          [{ field := f, operator := .str "=", value := operator }] }
    else
      { qb with conditions := qb.conditions ++
          [{ field := f, operator := operator, value := value }] }

/-- `whereIn(field, values)`: push a condition with operator `in`. -/
def whereIn (qb : QueryBuilder) (field : String) (values : JSVal) :
    QueryBuilder :=
  { qb with conditions := qb.conditions ++
      [{ field := field, operator := .str "in", value := values }] }

/-- `whereNotIn(field, values)`: push a condition with operator `not in`. -/
def whereNotIn (qb : QueryBuilder) (field : String) (values : JSVal) :
    QueryBuilder :=
  { qb with conditions := qb.conditions ++
      [{ field := field, operator := .str "not in", value := values }] }

/-- `whereLike(field, value)`: push a condition with operator `like`. -/
def whereLike (qb : QueryBuilder) (field : String) (value : JSVal) :
    QueryBuilder :=
  { qb with conditions := qb.conditions ++
      [{ field := field, operator := .str "like", value := value }] }

/-- `select(...fields)`: `this.fields = fields.flat()` — flatten the rest
arguments one level and replace the stored field list. -/
def select (qb : QueryBuilder) (fields : List JSVal) : QueryBuilder :=
  { qb with fields := fields.flatMap (fun v =>
      match v with
      | .arr xs => xs
      | v => [v]) }

/-- `orderBy(field, direction)`: `this.sorts[field] = direction.toLowerCase()`
(the source defaults `direction` to `'asc'`; callers of the model pass it
explicitly). -/
def orderBy (qb : QueryBuilder) (field : String) (direction : String) :
    QueryBuilder :=
  { qb with sorts := objSet qb.sorts field direction.toLower }

/-- `limit(limit)`: store the value. -/
def limit (qb : QueryBuilder) (n : Int) : QueryBuilder :=
  { qb with limitValue := some n }

/-- `skip(skip)`: store the value. -/
def skip (qb : QueryBuilder) (n : Int) : QueryBuilder :=
  { qb with skipValue := some n }

/-- `offset(offset)`: alias for `skip`. -/
def offset (qb : QueryBuilder) (n : Int) : QueryBuilder :=
  qb.skip n

end QueryBuilder

/-- One predicate clause of the knex fluent query: the three clause-building
calls `_buildQuery` makes on the knex query object. -/
inductive KnexClause where
  | clauseIn (field : String) (values : JSVal)
  | clauseNotIn (field : String) (values : JSVal)
  | clauseWhere (field : String) (op : JSVal) (value : JSVal)

/-- The knex query object being built by `_buildQuery`: table reference plus
the accumulated clauses, selection, ordering and pagination.  Modelled from
the spec: the relational client's fluent statement builder. -/
structure KnexQuery where
  table : Option String
  clauses : List KnexClause
  selectFields : List JSVal
  orderBys : List (String × String)
  limit : Option Int
  offset : Option Int

namespace KnexQuery

/-- The empty statement `knex(builder.table)`. -/
def base (table : Option String) : KnexQuery :=
  { table := table, clauses := [], selectFields := [], orderBys := [],
    limit := none, offset := none }

/-- `query.whereIn(field, value)`. -/
def qWhereIn (q : KnexQuery) (field : String) (values : JSVal) : KnexQuery :=
  { q with clauses := q.clauses ++ [.clauseIn field values] }

/-- `query.whereNotIn(field, value)`. -/
def qWhereNotIn (q : KnexQuery) (field : String) (values : JSVal) : KnexQuery :=
  { q with clauses := q.clauses ++ [.clauseNotIn field values] }

/-- `query.where(field, operator, value)`. -/
def qWhere (q : KnexQuery) (field : String) (op : JSVal) (value : JSVal) :
    KnexQuery :=
  { q with clauses := q.clauses ++ [.clauseWhere field op value] }

end KnexQuery

namespace KnexAdapter

/-- The body of the per-condition `switch` in `_buildQuery`: `in` and
`not in` become set-membership clauses, `like` becomes
`query.where(field, 'like', value)`, everything else is passed verbatim to
`query.where(field, operator, value)`. -/
def applyCondition (q : KnexQuery) (condition : Condition) : KnexQuery :=
  match condition.operator with
  | .str "in" => q.qWhereIn condition.field condition.value
  | .str "not in" => q.qWhereNotIn condition.field condition.value
  | .str "like" => q.qWhere condition.field (.str "like") condition.value
  | op => q.qWhere condition.field op condition.value

/-- `KnexAdapter._buildQuery(builder)`.  The adapter's stored engine tag
`dbEngine` is a parameter, as it is a field of the adapter object — note the
body never consults it, exactly as in the source. -/
def buildQuery (dbEngine : String) (builder : QueryBuilder) : KnexQuery :=
  let query := KnexQuery.base builder.table
  let query :=
    if builder.conditions.length > 0 then
      builder.conditions.foldl applyCondition query
    else query
  let query :=
    if builder.fields.length > 0 then
      { query with selectFields := builder.fields }
    else query
  let query :=
    if builder.sorts.length > 0 then
      builder.sorts.foldl
        (fun q fd => { q with orderBys := q.orderBys ++ [fd] }) query
    else query
  let query :=
    match builder.limitValue with
    | some n => { query with limit := some n }
    | none => query
  match builder.skipValue with
  | some n => { query with offset := some n }
  | none => query

end KnexAdapter

/-- Ordering of JavaScript values as compared by the modelled backends:
numbers and strings compare naturally, any other comparison is `eq`
(Modelled from the spec, which only orders scalar sort keys). -/
def jsOrd (a b : JSVal) : Ordering :=
  match a, b with
  | .num x, .num y => compare x y
  | .str x, .str y => compare x y
  | _, _ => .eq

/-- `$gt`-style binary comparisons used by both modelled backends. -/
def jsLtB (a b : JSVal) : Bool := jsOrd a b = .lt

/-- Insert into a sorted list, keeping stability. -/
def insertLe {α : Type} (le : α → α → Bool) (x : α) : List α → List α
  | [] => [x]
  | y :: ys => if le x y then x :: y :: ys else y :: insertLe le x ys

/-- Insertion sort by a boolean comparison (the modelled backend sort). -/
def sortRows {α : Type} (le : α → α → Bool) : List α → List α
  | [] => []
  | x :: xs => insertLe le x (sortRows le xs)

/-- `LIMIT` / mongo `limit`: keep the first `n` results when set. -/
def applyLimit {α : Type} (lim : Option Int) (xs : List α) : List α :=
  match lim with
  | none => xs
  | some n => xs.take n.toNat

/-- `OFFSET` / mongo `skip`: drop the first `n` results when set. -/
def applySkip {α : Type} (sk : Option Int) (xs : List α) : List α :=
  match sk with
  | none => xs
  | some n => xs.drop n.toNat

/-- Search for `piece` as a contiguous sublist; on success return the
remainder that follows its first occurrence. -/
def findDrop (piece : List Char) : List Char → Option (List Char)
  | [] => if piece.isEmpty then some [] else none
  | c :: t =>
    if piece.isPrefixOf (c :: t) then some ((c :: t).drop piece.length)
    else findDrop piece t

/-- Unanchored in-order matching of literal pieces (the shape of patterns
the adapter builds: literals joined by wildcards), used for the modelled
regex test. -/
def searchPieces : List (List Char) → List Char → Bool
  | [], _ => true
  | p :: rest, s =>
    match findDrop p s with
    | some s1 => searchPieces rest s1
    | none => false

/-- Anchored tail of SQL LIKE matching: middle pieces occur in order, the
last piece must end the string. -/
def likeTail : List (List Char) → List Char → Bool
  | [], s => s.isEmpty
  | [p], s => p.isSuffixOf s
  | p :: rest, s =>
    match findDrop p s with
    | some s1 => likeTail rest s1
    | none => false

/-- SQL `LIKE`: split the pattern on `%` and match anchored at both ends.
Modelled from the spec ("backend LIKE operator, value passed through
unmodified"). -/
def sqlLikeMatch (pattern s : String) : Bool :=
  match (pattern.splitOn "%").map String.toList with
  | [] => s.isEmpty
  | p :: rest =>
    if p.isPrefixOf s.toList then likeTail rest (s.toList.drop p.length)
    else false

/-- Case-insensitive unanchored test of the regexes the Document Adapter
builds (literal pieces joined by `.*`, flag `i`).  Modelled from the spec:
every `%` becomes `.*`, wrapped as a case-insensitive pattern match. -/
def regexTest (pattern flags s : String) : Bool :=
  if flags.contains 'i' then
    searchPieces ((pattern.toLower.splitOn ".*").map String.toList)
      s.toLower.toList
  else
    searchPieces ((pattern.splitOn ".*").map String.toList) s.toList

namespace MongoAdapter

/-- A JavaScript value used as an object key, as in `operatorMap[operator]`
or `options.projection[field] = 1`. -/
def jsKey : JSVal → String
  | .str s => s
  | .num n => toString n
  | .bool b => toString b
  | .null => "null"
  | .undefined => "undefined"
  | _ => ""

/-- The literal `operatorMap` of `_convertOperator`. -/
def operatorMap : List (String × String) :=
  [("=", "$eq"), ("!=", "$ne"), ("<>", "$ne"), (">", "$gt"), (">=", "$gte"),
   ("<", "$lt"), ("<=", "$lte"), ("like", "$regex"), ("in", "$in"),
   ("not in", "$nin")]

/-- `MongoAdapter._convertOperator(operator)`:
`operatorMap[operator] || '$eq'` — the map lookup with `$eq` as the
fallback for every operator that is not a key of the map (every value of
the map is truthy, so `||` only fires on a missing key). -/
def convertOperator (operator : JSVal) : String :=
  (objGet operatorMap (jsKey operator)).getD "$eq"

/-- The clause `_buildFilter` assigns for one condition: the `$regex` /
string-value pair becomes a case-insensitive regex with `%` rewritten to
`.*`, everything else is `{ [mongoOperator]: value }`. -/
def conditionClause (condition : Condition) : JSVal :=
  let mongoOperator := convertOperator condition.operator
  if mongoOperator = "$regex" then
    match condition.value with
    | .str s => .obj [(mongoOperator, .regex (s.replace "%" ".*") "i")]
    | v => .obj [(mongoOperator, v)]
  else
    .obj [(mongoOperator, condition.value)]

/-- `MongoAdapter._buildFilter(conditions)`: fold every condition into one
filter object keyed by field name (`filter[field] = {...}` overwrites). -/
def buildFilter (conditions : List Condition) : JSObj :=
  conditions.foldl
    (fun filter condition =>
      objSet filter condition.field (conditionClause condition)) []

/-- The options object `_buildOptions` produces: projection, sort, limit and
skip, each present only when the corresponding builder state is set. -/
structure MongoOptions where
  projection : Option (List (String × Int))
  sort : Option (List (String × Int))
  limit : Option Int
  skip : Option Int

/-- `MongoAdapter._buildOptions(builder)`. -/
def buildOptions (builder : QueryBuilder) : MongoOptions :=
  { projection :=
      if builder.fields.length > 0 then
        some (builder.fields.foldl (fun p f => objSet p (jsKey f) 1) [])
      else none
    sort :=
      if builder.sorts.length > 0 then
        some (builder.sorts.foldl
          (fun s fd => objSet s fd.1 (if fd.2 = "asc" then 1 else -1)) [])
      else none
    limit := builder.limitValue
    skip := builder.skipValue }

/-- Satisfaction of one mongo operator by a document value.  Modelled from
the spec's operator table (document-store semantics column). -/
def satisfiesOp (v : JSVal) (op : String) (w : JSVal) : Bool :=
  match op with
  | "$eq" => jsEqB v w
  | "$ne" => !jsEqB v w
  | "$gt" => jsOrd v w = .gt
  | "$gte" => jsOrd v w = .gt || jsEqB v w
  | "$lt" => jsOrd v w = .lt
  | "$lte" => jsOrd v w = .lt || jsEqB v w
  | "$in" =>
    match w with
    | .arr ws => ws.any (fun x => jsEqB v x)
    | _ => false
  | "$nin" =>
    match w with
    | .arr ws => !ws.any (fun x => jsEqB v x)
    | _ => true
  | "$regex" =>
    match w, v with
    | .regex p flags, .str s => regexTest p flags s
    | _, _ => false
  | _ => false

/-- Satisfaction of one filter clause (an operator object) by a document
value.  Modelled from the spec. -/
def matchesClause (v : JSVal) (clause : JSVal) : Bool :=
  match clause with
  | .obj kvs => kvs.all (fun kv => satisfiesOp v kv.1 kv.2)
  | w => jsEqB v w

/-- A document matches the filter when every field clause is satisfied.
Modelled from the spec: the document-store client's filter matching. -/
def docMatchesFilter (doc : JSObj) (filter : JSObj) : Bool :=
  filter.all (fun kv => matchesClause (objGetD doc kv.1) kv.2)

/-- Projection of one document: keep the listed keys.  Modelled from the
spec ("each field mapped to inclusion flag"). -/
def projectDoc (projection : List (String × Int)) (doc : JSObj) : JSObj :=
  doc.filter (fun kv => (objGet projection kv.1).isSome)

/-- Row comparison by the mongo sort object (1 ascending, -1 descending).
Modelled from the spec. -/
def mongoRowLe (sortObj : List (String × Int)) (r1 r2 : JSObj) : Bool :=
  match sortObj with
  | [] => true
  | (f, dir) :: rest =>
    match jsOrd (objGetD r1 f) (objGetD r2 f) with
    | .lt => dir ≥ 0
    | .gt => dir < 0
    | .eq => mongoRowLe rest r1 r2

/-- `MongoAdapter.get(builder)` against a modelled collection `docs`:
`_buildFilter` and `_buildOptions` from the source, composed with a
spec-modelled `collection.find(filter, options).toArray()` (filter, sort,
skip, limit, projection). -/
def get (builder : QueryBuilder) (docs : List JSObj) : List JSObj :=
  let filter := buildFilter builder.conditions
  let options := buildOptions builder
  let matched := docs.filter (fun d => docMatchesFilter d filter)
  let sorted :=
    match options.sort with
    | none => matched
    | some s => sortRows (mongoRowLe s) matched
  let paged := applyLimit options.limit (applySkip options.skip sorted)
  match options.projection with
  | none => paged
  | some p => paged.map (projectDoc p)

/-- `MongoAdapter.count(builder)` — note the source signature takes no field
argument — against a modelled collection: `_buildFilter` from the source
composed with a spec-modelled `collection.countDocuments(filter)`. -/
def count (builder : QueryBuilder) (docs : List JSObj) : Nat :=
  let filter := buildFilter builder.conditions
  (docs.filter (fun d => docMatchesFilter d filter)).length

end MongoAdapter

namespace KnexAdapter

/-- Satisfaction of one knex predicate clause by a row.  Modelled from the
spec's operator table (relational semantics column); an operator outside the
vocabulary matches nothing (the real client rejects it). -/
def clauseMatches (row : JSObj) : KnexClause → Bool
  | .clauseIn f values =>
    match values with
    | .arr vs => vs.any (fun x => jsEqB (objGetD row f) x)
    | _ => false
  | .clauseNotIn f values =>
    match values with
    | .arr vs => !vs.any (fun x => jsEqB (objGetD row f) x)
    | _ => true
  | .clauseWhere f op v =>
    match op with
    | .str "=" => jsEqB (objGetD row f) v
    | .str "!=" => !jsEqB (objGetD row f) v
    | .str "<>" => !jsEqB (objGetD row f) v
    | .str ">" => jsOrd (objGetD row f) v = .gt
    | .str ">=" => jsOrd (objGetD row f) v = .gt || jsEqB (objGetD row f) v
    | .str "<" => jsOrd (objGetD row f) v = .lt
    | .str "<=" => jsOrd (objGetD row f) v = .lt || jsEqB (objGetD row f) v
    | .str "like" =>
      match v, objGetD row f with
      | .str pattern, .str s => sqlLikeMatch pattern s
      | _, _ => false
    | _ => false

/-- The rows of the table satisfying every predicate clause of the built
statement.  Modelled from the spec: the relational client's WHERE
evaluation (conjunction of the clauses). -/
def filterRows (q : KnexQuery) (rows : List JSObj) : List JSObj :=
  rows.filter (fun r => q.clauses.all (fun c => clauseMatches r c))

/-- Row comparison by the ORDER BY list (ascending exactly when the stored
direction is `asc`).  Modelled from the spec. -/
def knexRowLe (orderBys : List (String × String)) (r1 r2 : JSObj) : Bool :=
  match orderBys with
  | [] => true
  | (f, dir) :: rest =>
    match jsOrd (objGetD r1 f) (objGetD r2 f) with
    | .lt => dir = "asc"
    | .gt => dir ≠ "asc"
    | .eq => knexRowLe rest r1 r2

/-- Projection of a row by the SELECT list.  Modelled from the spec. -/
def projectRow (selectFields : List JSVal) (row : JSObj) : JSObj :=
  row.filter (fun kv => selectFields.any (fun f => jsEqB f (.str kv.1)))

/-- `KnexAdapter.get(builder)` against a modelled table `rows`:
`_buildQuery` from the source composed with a spec-modelled execution of
the built statement (filter, order, offset, limit, projection). -/
def get (dbEngine : String) (builder : QueryBuilder) (rows : List JSObj) :
    List JSObj :=
  let q := buildQuery dbEngine builder
  let matched := filterRows q rows
  let sorted :=
    if q.orderBys.isEmpty then matched
    else sortRows (knexRowLe q.orderBys) matched
  let paged := applyLimit q.limit (applySkip q.offset sorted)
  if q.selectFields.isEmpty then paged
  else paged.map (projectRow q.selectFields)

/-- `KnexAdapter.count(builder, field)` against a modelled table:
`_buildQuery` from the source composed with a spec-modelled COUNT aggregate
(`COUNT(*)` counts matching rows, `COUNT(field)` counts matching rows whose
`field` is neither NULL nor absent). -/
def count (dbEngine : String) (builder : QueryBuilder) (field : JSVal)
    (rows : List JSObj) : Nat :=
  let matched := filterRows (buildQuery dbEngine builder) rows
  match field with
  | .str "*" => matched.length
  | .str f =>
    (matched.filter (fun r =>
      !(jsEqB (objGetD r f) .null) && !(jsEqB (objGetD r f) .undefined))).length
  | _ => matched.length

/-- Rendering of a JavaScript value inside the statement text.  Modelled
from the spec: the relational client's statement-to-text capability. -/
def renderJSVal : JSVal → String
  | .undefined => "undefined"
  | .null => "null"
  | .bool b => toString b
  | .num n => toString n
  | .str s => s
  | .arr xs => String.intercalate ", " (xs.map (fun v =>
      match v with
      | .undefined => "undefined"
      | .null => "null"
      | .bool b => toString b
      | .num n => toString n
      | .str s => s
      | _ => "?"))
  | .obj _ => "?"
  | .regex p _ => p

/-- Rendering of one predicate clause. -/
def renderClause : KnexClause → String
  | .clauseIn f values => f ++ " in (" ++ renderJSVal values ++ ")"
  | .clauseNotIn f values => f ++ " not in (" ++ renderJSVal values ++ ")"
  | .clauseWhere f op v => f ++ " " ++ renderJSVal op ++ " " ++ renderJSVal v

/-- `query.toString()`: textual rendering of the built statement.  Modelled
from the spec's statement-to-text capability of the relational client. -/
def renderQuery (q : KnexQuery) : String :=
  let sel :=
    if q.selectFields.isEmpty then "*"
    else String.intercalate ", " (q.selectFields.map renderJSVal)
  let base := "select " ++ sel ++ " from " ++ (q.table.getD "undefined")
  let base :=
    if q.clauses.isEmpty then base
    else base ++ " where " ++
      String.intercalate " and " (q.clauses.map renderClause)
  let base :=
    if q.orderBys.isEmpty then base
    else base ++ " order by " ++
      String.intercalate ", " (q.orderBys.map (fun fd => fd.1 ++ " " ++ fd.2))
  let base :=
    match q.limit with
    | some n => base ++ " limit " ++ toString n
    | none => base
  match q.offset with
  | some n => base ++ " offset " ++ toString n
  | none => base

end KnexAdapter

namespace QueryBuilder

/-- `get()`: delegate to the bound adapter's `get`.  The modelled stores are
passed explicitly: `rows` is the relational table named by the builder,
`docs` the document collection. -/
def get (qb : QueryBuilder) (rows docs : List JSObj) : List JSObj :=
  match qb.adapter with
  | .knexAdapter e => KnexAdapter.get e qb rows
  | .mongoAdapter => MongoAdapter.get qb docs

/-- `first()`: save `limitValue`, force it to 1, await `this.adapter.get`,
restore `limitValue`, return `results[0] || null`.  The adapter call is a
parameter (`adapterGet`) so that a rejecting backend call can be expressed:
on `Except.error` the `await` rethrows and the two statements after it never
run.  The result pairs the returned (or thrown) value with the builder state
after the call. -/
def first (qb : QueryBuilder)
    (adapterGet : QueryBuilder → Except String (List JSObj)) :
    Except String JSVal × QueryBuilder :=
  let originalLimit := qb.limitValue
  let qb1 := { qb with limitValue := some 1 }
  match adapterGet qb1 with
  | .error e => (.error e, qb1)
  | .ok results =>
    let qb2 := { qb1 with limitValue := originalLimit }
    let head := match results.head? with
      | some r => JSVal.obj r
      | none => JSVal.undefined
    (.ok (if head.truthy then head else .null), qb2)

/-- `count(field = '*')`: delegate to the adapter, passing `field` along.
`MongoAdapter.count` declares no field parameter, so on the document path
the extra argument is dropped, exactly as in JavaScript. -/
def count (qb : QueryBuilder) (field : JSVal) (rows docs : List JSObj) :
    Nat :=
  match qb.adapter with
  | .knexAdapter e => KnexAdapter.count e qb field rows
  | .mongoAdapter => MongoAdapter.count qb docs

/-- `toSQL()`: when the bound adapter is the KnexAdapter, build the query
and render it; otherwise throw
`'toSQL() hanya tersedia untuk SQL database'`. -/
def toSQL (qb : QueryBuilder) : Except String String :=
  match qb.adapter with
  | .knexAdapter e => .ok (KnexAdapter.renderQuery (KnexAdapter.buildQuery e qb))
  | .mongoAdapter => .error "toSQL() hanya tersedia untuk SQL database"

end QueryBuilder

/-- The most recent condition of a list satisfying `p`: later conditions
override earlier ones under `_buildFilter`'s keyed assignment. -/
def lastWith (p : Condition → Bool) : List Condition → Option Condition
  | [] => none
  | c :: rest =>
    match lastWith p rest with
    | some c1 => some c1
    | none => if p c then some c else none

theorem objGet_objSet_self {α : Type} (o : List (String × α)) (k : String)
    (v : α) : objGet (objSet o k v) k = some v := by
  induction o with
  | nil => simp [objSet, objGet]
  | cons hd tl ih =>
    obtain ⟨k1, v1⟩ := hd
    by_cases h : k1 = k <;> simp [objSet, objGet, h, ih]

theorem objGet_objSet_ne {α : Type} (o : List (String × α)) (k k1 : String)
    (v : α) (h : k1 ≠ k) : objGet (objSet o k v) k1 = objGet o k1 := by
  have hk : k ≠ k1 := fun hh => h hh.symm
  induction o with
  | nil => simp [objSet, objGet, hk]
  | cons hd tl ih =>
    obtain ⟨k2, v2⟩ := hd
    by_cases h2 : k2 = k
    · subst h2
      simp [objSet, objGet, hk]
    · simp [objSet, objGet, h2, ih]

theorem objGet_mem {α : Type} (o : List (String × α)) (k : String) (v : α)
    (h : objGet o k = some v) : (k, v) ∈ o := by
  induction o with
  | nil => simp [objGet] at h
  | cons hd tl ih =>
    obtain ⟨k1, v1⟩ := hd
    by_cases h1 : k1 = k
    · subst h1
      simp [objGet] at h
      simp [h]
    · simp [objGet, h1] at h
      exact List.mem_cons_of_mem _ (ih h)

theorem all_false_of_mem {α : Type} (l : List α) (p : α → Bool) (x : α)
    (hx : x ∈ l) (hp : p x = false) : l.all p = false := by
  cases hall : l.all p with
  | false => rfl
  | true =>
    have := (List.all_eq_true.mp hall) x hx
    rw [hp] at this
    exact absurd this (by simp)

theorem filter_false_eq_nil {α : Type} (l : List α) (p : α → Bool)
    (h : ∀ a ∈ l, p a = false) : l.filter p = [] := by
  induction l with
  | nil => rfl
  | cons hd tl ih =>
    have hh := h hd (List.mem_cons_self hd tl)
    rw [List.filter_cons, hh]
    simpa using ih (fun a ha => h a (List.mem_cons_of_mem _ ha))

theorem applyLimit_nil {α : Type} (lim : Option Int) :
    applyLimit lim ([] : List α) = [] := by
  cases lim <;> simp [applyLimit]

theorem applySkip_nil {α : Type} (sk : Option Int) :
    applySkip sk ([] : List α) = [] := by
  cases sk <;> simp [applySkip]

theorem lastWith_append_singleton (p : Condition → Bool)
    (cs : List Condition) (c : Condition) :
    lastWith p (cs ++ [c]) = if p c then some c else lastWith p cs := by
  induction cs with
  | nil => simp [lastWith]
  | cons a rest ih =>
    show (match lastWith p (rest ++ [c]) with
      | some c1 => some c1
      | none => if p a then some a else none) = _
    rw [ih]
    by_cases hc : p c
    · simp [hc, lastWith]
    · simp only [hc, if_false]
      rfl

theorem buildFilter_foldl_lookup (cs : List Condition) (acc : JSObj)
    (f : String) :
    objGet (cs.foldl
        (fun filter condition =>
          objSet filter condition.field (MongoAdapter.conditionClause condition))
        acc) f
      = match lastWith (fun c => c.field == f) cs with
        | some c => some (MongoAdapter.conditionClause c)
        | none => objGet acc f := by
  induction cs generalizing acc with
  | nil => simp [lastWith]
  | cons c rest ih =>
    show objGet (rest.foldl _ (objSet acc c.field (MongoAdapter.conditionClause c))) f = _
    rw [ih]
    cases hlw : lastWith (fun c => c.field == f) rest with
    | some c1 => simp [lastWith, hlw]
    | none =>
      by_cases hf : c.field = f
      · subst hf
        simp [lastWith, hlw, objGet_objSet_self]
      · have hne : f ≠ c.field := fun hh => hf hh.symm
        simp [lastWith, hlw, hf, objGet_objSet_ne acc c.field f _ hne]

/-- The lookup characterization of `_buildFilter`: the entry stored for a
field is the clause of the most recent condition naming that field. -/
theorem buildFilter_lookup (cs : List Condition) (f : String) :
    objGet (MongoAdapter.buildFilter cs) f
      = (lastWith (fun c => c.field == f) cs).map MongoAdapter.conditionClause := by
  have h := buildFilter_foldl_lookup cs [] f
  rw [MongoAdapter.buildFilter, h]
  cases lastWith (fun c => c.field == f) cs <;> simp [objGet]

/-- The single clause `_buildQuery`'s switch emits for one condition. -/
def conditionToClause (c : Condition) : KnexClause :=
  match c.operator with
  | .str "in" => .clauseIn c.field c.value
  | .str "not in" => .clauseNotIn c.field c.value
  | .str "like" => .clauseWhere c.field (.str "like") c.value
  | op => .clauseWhere c.field op c.value

theorem applyCondition_eq (q : KnexQuery) (c : Condition) :
    KnexAdapter.applyCondition q c
      = { q with clauses := q.clauses ++ [conditionToClause c] } := by
  unfold KnexAdapter.applyCondition conditionToClause
  split <;> rfl

theorem foldl_applyCondition_clauses (cs : List Condition) (q : KnexQuery) :
    (cs.foldl KnexAdapter.applyCondition q).clauses
      = q.clauses ++ cs.map conditionToClause := by
  induction cs generalizing q with
  | nil => simp
  | cons c rest ih =>
    show ((rest.foldl KnexAdapter.applyCondition (KnexAdapter.applyCondition q c))).clauses = _
    rw [ih, applyCondition_eq]
    simp

theorem clauses_after_sorts (sorts : List (String × String)) (q : KnexQuery) :
    (sorts.foldl (fun q fd => { q with orderBys := q.orderBys ++ [fd] }) q).clauses
      = q.clauses := by
  induction sorts generalizing q with
  | nil => rfl
  | cons s rest ih =>
    rw [List.foldl_cons, ih]

theorem if_foldl_conditions (cs : List Condition) (q : KnexQuery) :
    (if cs.length > 0 then cs.foldl KnexAdapter.applyCondition q else q)
      = cs.foldl KnexAdapter.applyCondition q := by
  cases cs <;> simp

theorem if_foldl_sorts (sorts : List (String × String)) (q : KnexQuery) :
    (if sorts.length > 0 then
        sorts.foldl (fun q fd => { q with orderBys := q.orderBys ++ [fd] }) q
      else q)
      = sorts.foldl (fun q fd => { q with orderBys := q.orderBys ++ [fd] }) q := by
  cases sorts <;> simp

/-- The clause list of the built knex statement is the per-condition
translation of the builder's conditions, in order. -/
theorem buildQuery_clauses (e : String) (qb : QueryBuilder) :
    (KnexAdapter.buildQuery e qb).clauses = qb.conditions.map conditionToClause := by
  unfold KnexAdapter.buildQuery
  dsimp only
  rw [if_foldl_conditions]
  rw [if_foldl_sorts]
  cases qb.skipValue <;> cases qb.limitValue <;>
    by_cases hf : qb.fields.length > 0 <;>
    simp only [hf, if_true, if_false, reduceIte] <;>
    simp [clauses_after_sorts, foldl_applyCondition_clauses, KnexQuery.base]

/-- C1 counterexample: the claim says a three-argument call
`where(field, operator, undefined)` appends `{field, operator, value:
undefined}`.  On the code, `where('age', '>', undefined)` instead takes the
`value === undefined` branch and appends `{field: 'age', operator: '=',
value: '>'}` — shape selection inspects the value, not the arity. -/
theorem C1_counterexample :
    ((QueryBuilder.create "pg").where' (.fld "age") (.str ">") .undefined).conditions
        = [{ field := "age", operator := .str "=", value := .str ">" }]
    ∧ ((QueryBuilder.create "pg").where' (.fld "age") (.str ">") .undefined).conditions
        ≠ [{ field := "age", operator := .str ">", value := .undefined }] := by
  constructor
  · rfl
  · intro h
    have h2 := List.head_eq_of_cons_eq h
    have h3 := congrArg Condition.operator h2
    simp at h3

/-- C1 (amended): `where`'s call shape is selected by inspecting argument
values, not arity: an object first argument selects the object shape, and
otherwise the call is treated as the two-argument equality shape exactly
when the third value is `undefined` (so `where(field, operator, undefined)`
appends `{field, operator: '=', value: operator}`); only calls whose third
value is defined append `{field, operator, value}` verbatim. -/
theorem C1_where_shape_value_inspection (qb : QueryBuilder) (f : String)
    (kvs : List (String × JSVal)) (op v : JSVal) :
    ((qb.where' (.obj kvs) op v).conditions
        = qb.conditions ++ kvs.map
            (fun kv => { field := kv.1, operator := .str "=", value := kv.2 }))
    ∧ ((qb.where' (.fld f) op v).conditions
        = qb.conditions ++
            [if v.isUndefined then { field := f, operator := .str "=", value := op }
             else { field := f, operator := op, value := v }]) := by
  constructor
  · rfl
  · unfold QueryBuilder.where'
    cases hv : v.isUndefined <;> simp [hv]

/-- C2 counterexample: the claim says `where('a','eq',1)` yields the same
condition sequence as `where('a',1)`.  On the code the former stores the
operator tag `'eq'` verbatim while the latter stores `'='`, so the
sequences differ (and the knex translation passes `'eq'` through verbatim
while `'='` is the equality the two-argument form produces). -/
theorem C2_counterexample :
    ((QueryBuilder.create "pg").where' (.fld "a") (.str "eq") (.num 1)).conditions
      ≠ ((QueryBuilder.create "pg").where' (.fld "a") (.num 1) .undefined).conditions := by
  intro h
  have h1 : ((QueryBuilder.create "pg").where' (.fld "a") (.str "eq") (.num 1)).conditions
      = [{ field := "a", operator := .str "eq", value := .num 1 }] := rfl
  have h2 : ((QueryBuilder.create "pg").where' (.fld "a") (.num 1) .undefined).conditions
      = [{ field := "a", operator := .str "=", value := .num 1 }] := rfl
  rw [h1, h2] at h
  have h3 := congrArg Condition.operator (List.head_eq_of_cons_eq h)
  simp at h3

/-- C2 (amended): the object shape and the two-argument shape produce
identical condition sequences, and both coincide with the three-argument
shape using the code's equality tag `'='` (for defined values); the
`'eq'`-tagged three-argument form stores a different operator tag, though
the Document Adapter still translates it to the same `$eq` filter. -/
theorem C2_where_shapes_agree (qb : QueryBuilder) (a b : String)
    (v1 v2 : JSVal) (h1 : v1.isUndefined = false) (h2 : v2.isUndefined = false) :
    ((qb.where' (.obj [(a, v1), (b, v2)]) .undefined .undefined).conditions
        = ((qb.where' (.fld a) v1 .undefined).where' (.fld b) v2 .undefined).conditions)
    ∧ ((qb.where' (.obj [(a, v1), (b, v2)]) .undefined .undefined).conditions
        = ((qb.where' (.fld a) (.str "=") v1).where' (.fld b) (.str "=") v2).conditions)
    ∧ (MongoAdapter.buildFilter
          ((qb.where' (.fld a) (.str "eq") v1).where' (.fld b) (.str "eq") v2).conditions
        = MongoAdapter.buildFilter
          ((qb.where' (.fld a) (.str "=") v1).where' (.fld b) (.str "=") v2).conditions) := by
  refine ⟨?_, ?_, ?_⟩
  · simp [QueryBuilder.where', JSVal.isUndefined]
  · simp [QueryBuilder.where', h1, h2]
  · have e1 : ((qb.where' (.fld a) (.str "eq") v1).where' (.fld b) (.str "eq") v2).conditions
        = qb.conditions ++ [{ field := a, operator := .str "eq", value := v1 },
            { field := b, operator := .str "eq", value := v2 }] := by
      simp [QueryBuilder.where', h1, h2]
    have e2 : ((qb.where' (.fld a) (.str "=") v1).where' (.fld b) (.str "=") v2).conditions
        = qb.conditions ++ [{ field := a, operator := .str "=", value := v1 },
            { field := b, operator := .str "=", value := v2 }] := by
      simp [QueryBuilder.where', h1, h2]
    rw [MongoAdapter.buildFilter, MongoAdapter.buildFilter, e1, e2,
      List.foldl_append, List.foldl_append]
    rfl

/-- C2 witness: the three shapes at `a := "a"`, `b := "b"`, `v1 := 1`,
`v2 := 2` on a fresh relational builder. -/
theorem C2_witness :
    (((QueryBuilder.create "pg").where' (.obj [("a", .num 1), ("b", .num 2)]) .undefined .undefined).conditions
        = (((QueryBuilder.create "pg").where' (.fld "a") (.num 1) .undefined).where' (.fld "b") (.num 2) .undefined).conditions)
    ∧ (((QueryBuilder.create "pg").where' (.obj [("a", .num 1), ("b", .num 2)]) .undefined .undefined).conditions
        = (((QueryBuilder.create "pg").where' (.fld "a") (.str "=") (.num 1)).where' (.fld "b") (.str "=") (.num 2)).conditions)
    ∧ (MongoAdapter.buildFilter
          (((QueryBuilder.create "pg").where' (.fld "a") (.str "eq") (.num 1)).where' (.fld "b") (.str "eq") (.num 2)).conditions
        = MongoAdapter.buildFilter
          (((QueryBuilder.create "pg").where' (.fld "a") (.str "=") (.num 1)).where' (.fld "b") (.str "=") (.num 2)).conditions) :=
  C2_where_shapes_agree (QueryBuilder.create "pg") "a" "b" (.num 1) (.num 2) rfl rfl

/-- C3 counterexample: the claim says `limitValue` equals its prior value
after `first()` whether the adapter call succeeds or rejects.  When the
adapter call rejects, the restoring assignment after the `await` never
runs: a builder with `limitValue = 50` is left with `limitValue = 1`. -/
theorem C3_counterexample :
    ((((QueryBuilder.create "pg").limit 50).first
        (fun _ => .error "connection lost")).2.limitValue = some 1)
    ∧ ((((QueryBuilder.create "pg").limit 50).first
        (fun _ => .error "connection lost")).2.limitValue ≠ some 50) := by
  exact ⟨rfl, by decide⟩

/-- C3 (amended): when the forced-limit adapter call succeeds, `first()`
restores the builder completely (so `limitValue` equals its prior value)
and returns the first row, or `null` when no row matches, without
throwing; when the adapter call rejects, the error propagates and
`limitValue` is left at the temporary value 1. -/
theorem C3_first_restores_limit_on_success (qb : QueryBuilder)
    (adapterGet : QueryBuilder → Except String (List JSObj))
    (results : List JSObj)
    (h : adapterGet { qb with limitValue := some 1 } = .ok results) :
    ((qb.first adapterGet).2 = qb)
    ∧ ((qb.first adapterGet).1
        = .ok (match results.head? with
               | some r => JSVal.obj r
               | none => JSVal.null)) := by
  unfold QueryBuilder.first
  dsimp only
  rw [h]
  constructor
  · rfl
  · cases results <;> rfl

/-- C3 witness: a successful empty result on a builder with a prior limit
of 50 restores the builder and yields `null`. -/
theorem C3_witness :
    ((((QueryBuilder.create "pg").limit 50).first (fun _ => .ok [])).2
        = (QueryBuilder.create "pg").limit 50)
    ∧ ((((QueryBuilder.create "pg").limit 50).first (fun _ => .ok [])).1
        = .ok (match ([] : List JSObj).head? with
               | some r => JSVal.obj r
               | none => JSVal.null)) :=
  C3_first_restores_limit_on_success ((QueryBuilder.create "pg").limit 50)
    (fun _ => .ok []) [] rfl

/-- A field list whose entries are plain strings is unchanged by the
one-level flattening `select` performs. -/
theorem flatMap_one_map_str (names : List String) :
    (names.map JSVal.str).flatMap (fun v =>
        match v with
        | .arr xs => xs
        | v => [v]) = names.map JSVal.str := by
  induction names with
  | nil => rfl
  | cons n rest ih => simp [List.flatMap_cons, ih]

/-- C8: `select` flattens all of its arguments and replaces the projected
field list rather than appending: after `select(args1)` a further
`select(args2)` leaves the builder exactly as if only `select(args2)` had
been called, and `select(['a','b', ...])` equals `select('a','b', ...)`. -/
theorem C8_select_flattens_replaces (qb : QueryBuilder)
    (args1 args2 : List JSVal) (names : List String) :
    ((qb.select args1).select args2 = qb.select args2)
    ∧ (qb.select [.arr (names.map JSVal.str)] = qb.select (names.map JSVal.str)) := by
  constructor
  · rfl
  · unfold QueryBuilder.select
    rw [flatMap_one_map_str]
    simp [List.flatMap_cons]

/-- The fixed operator vocabulary of the Builder (the keys of the Document
Adapter's operator map; the Relational Adapter special-cases only the
subset `in`, `not in`, `like`). -/
def operatorVocabulary : List String :=
  ["=", "!=", "<>", ">", ">=", "<", "<=", "like", "in", "not in"]

/-- C5: for a condition whose operator tag lies outside the fixed
vocabulary, the Relational Adapter passes the tag verbatim to the
underlying predicate builder (`query.where(field, operator, value)`), while
the Document Adapter converts it to `$eq`, so the document filter for such
a condition is `{field: {$eq: value}}`. -/
theorem C5_unknown_operator_translation (op : String)
    (h : op ∉ operatorVocabulary) (f : String) (v : JSVal) (q : KnexQuery) :
    (MongoAdapter.convertOperator (.str op) = "$eq")
    ∧ (MongoAdapter.buildFilter [{ field := f, operator := .str op, value := v }]
        = [(f, .obj [("$eq", v)])])
    ∧ (KnexAdapter.applyCondition q { field := f, operator := .str op, value := v }
        = { q with clauses := q.clauses ++ [.clauseWhere f (.str op) v] }) := by
  simp only [operatorVocabulary, List.mem_cons, List.not_mem_nil, or_false,
    not_or] at h
  obtain ⟨h1, h2, h3, h4, h5, h6, h7, h8, h9, h10⟩ := h
  have hconv : MongoAdapter.convertOperator (.str op) = "$eq" := by
    unfold MongoAdapter.convertOperator
    have hnone : objGet MongoAdapter.operatorMap (MongoAdapter.jsKey (.str op)) = none := by
      simp [MongoAdapter.operatorMap, MongoAdapter.jsKey, objGet,
        Ne.symm h1, Ne.symm h2, Ne.symm h3, Ne.symm h4, Ne.symm h5,
        Ne.symm h6, Ne.symm h7, Ne.symm h8, Ne.symm h9, Ne.symm h10]
    rw [hnone]
    rfl
  refine ⟨hconv, ?_, ?_⟩
  · show objSet [] f (MongoAdapter.conditionClause
        { field := f, operator := .str op, value := v }) = _
    unfold MongoAdapter.conditionClause
    rw [hconv]
    simp [objSet]
  · unfold KnexAdapter.applyCondition
    split
    · rename_i heq
      exact absurd (by injection heq) h9
    · rename_i heq
      exact absurd (by injection heq) h10
    · rename_i heq
      exact absurd (by injection heq) h8
    · rfl

/-- C5 witness: the unknown operator tag `regexp` at field `age`,
value 5, on the empty statement. -/
theorem C5_witness :
    (MongoAdapter.convertOperator (.str "regexp") = "$eq")
    ∧ (MongoAdapter.buildFilter
          [{ field := "age", operator := .str "regexp", value := .num 5 }]
        = [("age", .obj [("$eq", .num 5)])])
    ∧ (KnexAdapter.applyCondition (KnexQuery.base none)
          { field := "age", operator := .str "regexp", value := .num 5 }
        = { KnexQuery.base none with clauses := (KnexQuery.base none).clauses
            ++ [.clauseWhere "age" (.str "regexp") (.num 5)] }) :=
  C5_unknown_operator_translation "regexp" (by decide) "age" (.num 5)
    (KnexQuery.base none)

/-- C6: `_buildFilter` folds all conditions into one filter keyed by field
name, and the entry stored for a field is exactly the clause of the most
recent (later) condition naming that field — a second condition on the
same field silently overwrites the first's clause, and a field appears in
the filter exactly when some condition names it. -/
theorem C6_buildFilter_last_write_wins (cs : List Condition) (f : String) :
    objGet (MongoAdapter.buildFilter cs) f
      = (lastWith (fun c => c.field == f) cs).map MongoAdapter.conditionClause :=
  buildFilter_lookup cs f

/-- C7: `toSQL()` on a Builder whose adapter is the Document Adapter throws
`'toSQL() hanya tersedia untuk SQL database'` synchronously and
unconditionally, for every query state; on a KnexAdapter-bound Builder it
instead returns the textual rendering of the built statement. -/
theorem C7_toSQL_dispatch (table collection : Option String)
    (conditions : List Condition) (fields : List JSVal)
    (sorts : List (String × String)) (limitValue skipValue : Option Int)
    (dbEngine : String) :
    (QueryBuilder.toSQL
        ⟨table, collection, conditions, fields, sorts, limitValue, skipValue,
          .mongoAdapter, dbEngine⟩
      = .error "toSQL() hanya tersedia untuk SQL database")
    ∧ ∀ e : String, QueryBuilder.toSQL
        ⟨table, collection, conditions, fields, sorts, limitValue, skipValue,
          .knexAdapter e, dbEngine⟩
      = .ok (KnexAdapter.renderQuery (KnexAdapter.buildQuery e
          ⟨table, collection, conditions, fields, sorts, limitValue, skipValue,
            .knexAdapter e, dbEngine⟩)) :=
  ⟨rfl, fun _ => rfl⟩

theorem mongoGet_of_no_match (qb : QueryBuilder) (docs : List JSObj)
    (h : ∀ d ∈ docs, MongoAdapter.docMatchesFilter d
        (MongoAdapter.buildFilter qb.conditions) = false) :
    MongoAdapter.get qb docs = [] := by
  unfold MongoAdapter.get
  dsimp only
  rw [filter_false_eq_nil _ _ h]
  cases hs : (MongoAdapter.buildOptions qb).sort <;>
    cases hp : (MongoAdapter.buildOptions qb).projection <;>
    simp [hs, hp, sortRows, applyLimit_nil, applySkip_nil]

theorem knexGet_of_no_match (e : String) (qb : QueryBuilder) (rows : List JSObj)
    (h : ∀ r ∈ rows, (KnexAdapter.buildQuery e qb).clauses.all
        (fun c => KnexAdapter.clauseMatches r c) = false) :
    KnexAdapter.get e qb rows = [] := by
  unfold KnexAdapter.get KnexAdapter.filterRows
  dsimp only
  rw [filter_false_eq_nil _ _ h]
  by_cases ho : (KnexAdapter.buildQuery e qb).orderBys.isEmpty <;>
    by_cases hp : (KnexAdapter.buildQuery e qb).selectFields.isEmpty <;>
    simp [ho, hp, sortRows, applyLimit_nil, applySkip_nil]

/-- C4: `whereIn(field, [])` followed by `get()` returns the empty result
sequence on either adapter — never an error and never all rows: the
Document Adapter's filter carries the entry `{field: {$in: []}}` and the
Relational Adapter's statement carries the empty set-membership clause
`whereIn(field, [])`; neither adapter special-cases the empty sequence
away, and no row or document satisfies it. -/
theorem C4_whereIn_empty_matches_nothing (qb : QueryBuilder) (f : String)
    (rows docs : List JSObj) (e : String) :
    ((qb.whereIn f (.arr [])).get rows docs = [])
    ∧ (objGet (MongoAdapter.buildFilter (qb.whereIn f (.arr [])).conditions) f
        = some (.obj [("$in", .arr [])]))
    ∧ (KnexClause.clauseIn f (.arr [])
        ∈ (KnexAdapter.buildQuery e (qb.whereIn f (.arr []))).clauses) := by
  have hconds : (qb.whereIn f (.arr [])).conditions
      = qb.conditions ++ [{ field := f, operator := .str "in", value := .arr [] }] := rfl
  have hclause : MongoAdapter.conditionClause
      { field := f, operator := .str "in", value := .arr [] }
      = .obj [("$in", .arr [])] := rfl
  have hfilter : objGet
      (MongoAdapter.buildFilter (qb.whereIn f (.arr [])).conditions) f
      = some (.obj [("$in", .arr [])]) := by
    rw [hconds, buildFilter_lookup, lastWith_append_singleton]
    simp [hclause]
  have hmem := objGet_mem _ _ _ hfilter
  have hmongo : ∀ d : JSObj, MongoAdapter.docMatchesFilter d
      (MongoAdapter.buildFilter (qb.whereIn f (.arr [])).conditions) = false := by
    intro d
    exact all_false_of_mem _ _ _ hmem rfl
  have hkmem : ∀ e2 : String, KnexClause.clauseIn f (.arr [])
      ∈ (KnexAdapter.buildQuery e2 (qb.whereIn f (.arr []))).clauses := by
    intro e2
    rw [buildQuery_clauses, hconds]
    simp [conditionToClause]
  have hknex : ∀ (e2 : String) (r : JSObj),
      (KnexAdapter.buildQuery e2 (qb.whereIn f (.arr []))).clauses.all
        (fun c => KnexAdapter.clauseMatches r c) = false := by
    intro e2 r
    exact all_false_of_mem _ _ _ (hkmem e2) rfl
  refine ⟨?_, hfilter, hkmem e⟩
  unfold QueryBuilder.get
  cases ha : (qb.whereIn f (.arr [])).adapter with
  | knexAdapter e2 =>
    exact knexGet_of_no_match e2 _ rows (fun r _ => hknex e2 r)
  | mongoAdapter =>
    exact mongoGet_of_no_match _ docs (fun d _ => hmongo d)

/-- A builder holding the same accumulated query state, re-bound to the
adapter `_initAdapter` chooses for another engine tag: two such builders
model constructing the same query under two engine configurations. -/
def QueryBuilder.withEngine (qb : QueryBuilder) (e : String) : QueryBuilder :=
  { qb with dbEngine := e, adapter := QueryBuilder.initAdapter e }

/-- C9: every engine tag other than `mongodb` and `mongo` selects the
KnexAdapter, and the adapter's behaviour is independent of the stored tag:
two builders with the same query state whose tags both fall in the
relational family build identical statements and agree on `get`, `count`
and `toSQL`, because the stored `dbEngine` is never consulted during query
building or execution. -/
theorem C9_engine_tag_independent (e1 e2 : String)
    (h1 : e1 ≠ "mongodb" ∧ e1 ≠ "mongo") (h2 : e2 ≠ "mongodb" ∧ e2 ≠ "mongo")
    (qb : QueryBuilder) (rows docs : List JSObj) (field : JSVal) :
    (QueryBuilder.initAdapter e1 = .knexAdapter e1)
    ∧ (QueryBuilder.initAdapter e2 = .knexAdapter e2)
    ∧ (KnexAdapter.buildQuery e1 (qb.withEngine e1)
        = KnexAdapter.buildQuery e2 (qb.withEngine e2))
    ∧ ((qb.withEngine e1).get rows docs = (qb.withEngine e2).get rows docs)
    ∧ ((qb.withEngine e1).count field rows docs
        = (qb.withEngine e2).count field rows docs)
    ∧ ((qb.withEngine e1).toSQL = (qb.withEngine e2).toSQL) := by
  have hi1 : QueryBuilder.initAdapter e1 = .knexAdapter e1 := by
    simp [QueryBuilder.initAdapter, h1.1, h1.2]
  have hi2 : QueryBuilder.initAdapter e2 = .knexAdapter e2 := by
    simp [QueryBuilder.initAdapter, h2.1, h2.2]
  refine ⟨hi1, hi2, rfl, ?_, ?_, ?_⟩
  · unfold QueryBuilder.get QueryBuilder.withEngine
    dsimp only
    rw [hi1, hi2]
    rfl
  · unfold QueryBuilder.count QueryBuilder.withEngine
    dsimp only
    rw [hi1, hi2]
    rfl
  · unfold QueryBuilder.toSQL QueryBuilder.withEngine
    dsimp only
    rw [hi1, hi2]
    rfl

/-- C9 witness: the tags `pg` and `mysql` on a fresh builder with an empty
table and collection. -/
theorem C9_witness :
    (QueryBuilder.initAdapter "pg" = .knexAdapter "pg")
    ∧ (QueryBuilder.initAdapter "mysql" = .knexAdapter "mysql")
    ∧ (KnexAdapter.buildQuery "pg" ((QueryBuilder.create "pg").withEngine "pg")
        = KnexAdapter.buildQuery "mysql" ((QueryBuilder.create "pg").withEngine "mysql"))
    ∧ (((QueryBuilder.create "pg").withEngine "pg").get [] []
        = ((QueryBuilder.create "pg").withEngine "mysql").get [] [])
    ∧ (((QueryBuilder.create "pg").withEngine "pg").count (.str "*") [] []
        = ((QueryBuilder.create "pg").withEngine "mysql").count (.str "*") [] [])
    ∧ (((QueryBuilder.create "pg").withEngine "pg").toSQL
        = ((QueryBuilder.create "pg").withEngine "mysql").toSQL) :=
  C9_engine_tag_independent "pg" "mysql" ⟨by decide, by decide⟩
    ⟨by decide, by decide⟩ (QueryBuilder.create "pg") [] [] (.str "*")

/-- C10: on the document-store path the field argument of `count` is
ignored: for a MongoAdapter-bound builder, `count(f)` equals `count(g)`
for any two field arguments (in particular `count()`, whose default is
`'*'`), both equal to the count of documents matching the filter built
from the conditions — `MongoAdapter.count` declares no field parameter. -/
theorem C10_mongo_count_ignores_field (qb : QueryBuilder)
    (h : qb.adapter = .mongoAdapter) (f g : JSVal)
    (rows1 rows2 docs : List JSObj) :
    (qb.count f rows1 docs = qb.count g rows2 docs)
    ∧ (qb.count f rows1 docs = MongoAdapter.count qb docs)
    ∧ (qb.count f rows1 docs
        = (docs.filter (fun d => MongoAdapter.docMatchesFilter d
            (MongoAdapter.buildFilter qb.conditions))).length) := by
  unfold QueryBuilder.count
  rw [h]
  exact ⟨rfl, rfl, rfl⟩

/-- C10 witness: a fresh mongodb builder counted with field `name` and
with field `*` over a one-document collection. -/
theorem C10_witness :
    ((QueryBuilder.create "mongodb").count (.str "name") [] [[("a", .num 1)]]
        = (QueryBuilder.create "mongodb").count (.str "*") [] [[("a", .num 1)]])
    ∧ ((QueryBuilder.create "mongodb").count (.str "name") [] [[("a", .num 1)]]
        = MongoAdapter.count (QueryBuilder.create "mongodb") [[("a", .num 1)]])
    ∧ ((QueryBuilder.create "mongodb").count (.str "name") [] [[("a", .num 1)]]
        = (([[("a", .num 1)]] : List JSObj).filter
            (fun d => MongoAdapter.docMatchesFilter d
              (MongoAdapter.buildFilter (QueryBuilder.create "mongodb").conditions))).length) :=
  C10_mongo_count_ignores_field (QueryBuilder.create "mongodb") rfl
    (.str "name") (.str "*") [] [] [[("a", .num 1)]]
